import Mathlib

/-!
# Verification of the order-matching and ledger-settlement engine

Shallow embedding of the matching core of `src/app/tasks.py` (functions
`match_asset_orders`, `execute_trade`, `update_position`, `insert_cash_entry`,
`get_admin_user_id`) together with the data model of `src/app/models.py`.

Modelling conventions:
* Python `int` quantities are `Int` (they may in principle go negative, and the
  code guards for that explicitly).
* Python `Decimal` amounts are modelled as `ℚ`.  All additions, subtractions
  and multiplications performed by the engine on `Decimal` are exact, so `ℚ`
  models them exactly; the single division (`total_cost / position.qty` in
  `update_position`, a ratio of money to an integer count) is modelled as exact
  rational division.
* The module-level constants `MAKER_FEE` / `TAKER_FEE` (loaded from YAML
  configuration and divided by 100) become the fields of a `FeeConfig` value
  passed explicitly, since they are configuration, not state.
* The database session is modelled as an explicit `EngineState` record holding
  the order book, the positions table, the cash ledger, the trade log and the
  user table; SQL queries become list operations over it.
* The `while True` matching loop of `match_asset_orders` is embedded with
  explicit fuel; the termination theorem shows that fuel equal to the book's
  total open quantity plus one always reaches the loop's stopping condition.
-/

namespace MinecraftApp

/-- `OrderSide` enum of `models.py`. -/
inductive OrderSide : Type where
  | BUY : OrderSide
  | SELL : OrderSide
deriving DecidableEq, Repr

/-- `Role` enum of `models.py` (only ADMIN matters to the engine). -/
inductive Role : Type where
  | ADMIN : Role
  | USER : Role
  | VIEWER : Role
deriving DecidableEq, Repr

/-- Row of the `order_book` table (`class Order` in `models.py`), restricted to
the columns the matching engine reads or writes. -/
structure Order : Type where
  id : Nat
  asset_id : Nat
  side : OrderSide
  price : ℚ
  qty_open : Int
  user_id : Nat
  created_at : Nat
deriving DecidableEq, Repr

/-- Row of the `trades` table (`class Trade` in `models.py`). -/
structure Trade : Type where
  asset_id : Nat
  price : ℚ
  qty : Int
  buyer_id : Nat
  seller_id : Nat
deriving DecidableEq, Repr

/-- Row of the `positions` table (`class Position` in `models.py`). -/
structure Position : Type where
  user_id : Nat
  asset_id : Nat
  qty : Int
  avg_price : ℚ
deriving DecidableEq, Repr

/-- Row of the `cash_ledger` table (`class CashLedger` in `models.py`). -/
structure CashLedger : Type where
  user_id : Nat
  delta : ℚ
  reason : String
  ref_id : Option Nat
deriving DecidableEq, Repr

/-- Row of the `users` table (`class User` in `models.py`), restricted to the
columns `get_admin_user_id` touches. -/
structure User : Type where
  id : Nat
  email : String
  role : Role
deriving DecidableEq, Repr

/-- The persistent state visible to the engine: one database session's view of
the five tables, plus the id the database would assign to the next inserted
user (users carry an autoincrement primary key). -/
structure EngineState : Type where
  book : List Order
  positions : List Position
  ledger : List CashLedger
  trades : List Trade
  users : List User
  next_user_id : Nat
deriving DecidableEq, Repr

/-- The module constants `MAKER_FEE` and `TAKER_FEE` of `tasks.py` (already
divided by 100, i.e. these are fractions). -/
structure FeeConfig : Type where
  maker : ℚ
  taker : ℚ
deriving DecidableEq, Repr

/-- `SELECT ... ORDER BY key LIMIT 1`: the element of the list that is best
according to the strict preference `pref` (`pref a b = true` iff `a` sorts
strictly before `b`); ties keep the earlier list element. -/
def selectBest {α : Type} (pref : α → α → Bool) : List α → Option α
  | [] => none
  | o :: rest =>
    match selectBest pref rest with
    | none => some o
    | some b => if pref b o then some b else some o

/-- ORDER BY price DESC, created_at ASC for the BUY side. -/
def buyKeyLt (a b : Order) : Bool :=
  decide (b.price < a.price) ||
    (decide (a.price = b.price) && decide (a.created_at < b.created_at))

/-- ORDER BY price ASC, created_at ASC for the SELL side. -/
def sellKeyLt (a b : Order) : Bool :=
  decide (a.price < b.price) ||
    (decide (a.price = b.price) && decide (a.created_at < b.created_at))

/-- The `buy_stmt` query of `match_asset_orders`: best resting BUY order of
one asset (highest price, earliest submission breaking ties). -/
def bestBuy (asset_id : Nat) (book : List Order) : Option Order :=
  selectBest buyKeyLt
    (book.filter fun o => o.asset_id == asset_id && o.side == OrderSide.BUY)

/-- The `sell_stmt` query of `match_asset_orders`: best resting SELL order of
one asset (lowest price, earliest submission breaking ties). -/
def bestSell (asset_id : Nat) (book : List Order) : Option Order :=
  selectBest sellKeyLt
    (book.filter fun o => o.asset_id == asset_id && o.side == OrderSide.SELL)

/-- The in-place mutation done by `update_position` on the (possibly freshly
created) `Position` row: weighted-average cost on a buy, clamped decrement on
a sell. -/
def updatePositionEntry (p : Position) (qty : Int) (price : ℚ) (is_buy : Bool) :
    Position :=
  if is_buy then
    let total_cost : ℚ := p.avg_price * (p.qty : ℚ) + price * (qty : ℚ)
    let newQty : Int := p.qty + qty
    { p with
      qty := newQty
      avg_price := if 0 < newQty then total_cost / (newQty : ℚ) else 0 }
  else
    let newQty : Int := p.qty - qty
    { p with qty := if newQty < 0 then 0 else newQty }

/-- `update_position` of `tasks.py`: look the position up by (user, asset),
creating a zero row if absent, then apply the buy/sell mutation. -/
def update_position (positions : List Position) (user_id asset_id : Nat)
    (qty : Int) (price : ℚ) (is_buy : Bool) : List Position :=
  match positions.find? (fun p => p.user_id == user_id && p.asset_id == asset_id) with
  | some _ =>
    positions.map fun p =>
      if p.user_id == user_id && p.asset_id == asset_id then
        updatePositionEntry p qty price is_buy
      else p
  | none =>
    positions ++ [updatePositionEntry ⟨user_id, asset_id, 0, 0⟩ qty price is_buy]

/-- `insert_cash_entry` of `tasks.py`: append one row to the cash ledger. -/
def insert_cash_entry (ledger : List CashLedger) (user_id : Nat) (delta : ℚ)
    (reason : String) (ref_id : Option Nat) : List CashLedger :=
  ledger ++ [⟨user_id, delta, reason, ref_id⟩]

/-- `get_admin_user_id` of `tasks.py`: the first user with role ADMIN ordered
by id; if none exists, a synthetic admin user (`admin@local`) is inserted and
its freshly assigned id returned. -/
def get_admin_user_id (s : EngineState) : Nat × EngineState :=
  match selectBest (fun a b => decide (a.id < b.id))
      (s.users.filter fun u => u.role == Role.ADMIN) with
  | some admin_user => (admin_user.id, s)
  | none =>
    let admin_user : User := ⟨s.next_user_id, "admin@local", Role.ADMIN⟩
    (admin_user.id,
      { s with users := s.users ++ [admin_user],
               next_user_id := s.next_user_id + 1 })

/-- `execute_trade` of `tasks.py`: position updates, three ledger entries
(buyer debit, seller credit, fee accrual to the admin account), order quantity
decrements with removal of filled orders, and one appended trade record. -/
def execute_trade (cfg : FeeConfig) (s : EngineState)
    (buy_order sell_order : Order) (qty : Int) (price : ℚ) : EngineState :=
  let amount : ℚ := price * (qty : ℚ)
  let maker_fee : ℚ := amount * cfg.maker
  let taker_fee : ℚ := amount * cfg.taker
  let positions₁ :=
    update_position s.positions buy_order.user_id buy_order.asset_id qty price true
  let positions₂ :=
    update_position positions₁ sell_order.user_id sell_order.asset_id qty price false
  let ledger₁ :=
    insert_cash_entry s.ledger buy_order.user_id (-(amount + taker_fee)) "BUY"
      (some buy_order.id)
  let ledger₂ :=
    insert_cash_entry ledger₁ sell_order.user_id (amount - maker_fee) "SELL"
      (some sell_order.id)
  let s₁ : EngineState := { s with positions := positions₂, ledger := ledger₂ }
  let adm := get_admin_user_id s₁
  let admin_user_id := adm.1
  let s₂ := adm.2
  let fee_total : ℚ := maker_fee + taker_fee
  let ledger₃ := insert_cash_entry s₂.ledger admin_user_id fee_total "FEE" none
  let decremented := s₂.book.map fun o =>
    if o.id == buy_order.id || o.id == sell_order.id then
      { o with qty_open := o.qty_open - qty }
    else o
  let trade : Trade :=
    ⟨buy_order.asset_id, price, qty, buy_order.user_id, sell_order.user_id⟩
  let newBook := decremented.filter fun o =>
    !((o.id == buy_order.id || o.id == sell_order.id) && decide (o.qty_open ≤ 0))
  { s₂ with
    ledger := ledger₃
    book := newBook
    trades := s₂.trades ++ [trade] }

/-- One iteration of the `while True` loop of `match_asset_orders`: `none`
when the stopping condition fires (a side is empty, or best buy price is below
best sell price), otherwise the state after executing the crossing trade at
quantity `min` of the two open quantities and the SELL order's price. -/
def match_step (cfg : FeeConfig) (asset_id : Nat) (s : EngineState) :
    Option EngineState :=
  match bestBuy asset_id s.book, bestSell asset_id s.book with
  | some buy_order, some sell_order =>
    if buy_order.price < sell_order.price then none
    else
      let qty := min buy_order.qty_open sell_order.qty_open
      let price := sell_order.price
      some (execute_trade cfg s buy_order sell_order qty price)
  | _, _ => none

/-- The matching loop, with explicit fuel bounding the number of iterations. -/
def match_loop (cfg : FeeConfig) (asset_id : Nat) : Nat → EngineState → EngineState
  | 0, s => s
  | fuel + 1, s =>
    match match_step cfg asset_id s with
    | none => s
    | some s' => match_loop cfg asset_id fuel s'

/-- Total open quantity resting in a book (nonpositive rows count zero):
the termination measure of the matching loop. -/
def openQty (book : List Order) : Nat :=
  (book.map fun o => o.qty_open.toNat).sum

/-- `match_asset_orders` of `tasks.py`: run the matching loop for one asset to
completion; `openQty + 1` iterations always suffice (proved below). -/
def match_asset_orders (cfg : FeeConfig) (asset_id : Nat) (s : EngineState) :
    EngineState :=
  match_loop cfg asset_id (openQty s.book + 1) s

/-- The book well-formedness invariant of the spec's data model: every resting
order has strictly positive open quantity. -/
def bookWF (book : List Order) : Prop :=
  ∀ o ∈ book, 1 ≤ o.qty_open

instance (book : List Order) : Decidable (bookWF book) :=
  inferInstanceAs (Decidable (∀ o ∈ book, 1 ≤ o.qty_open))

/-- A sequence of matched tuples handed to `execute_trade`, for stating
reachability invariants over trade executions. -/
structure TradeIntent : Type where
  buy_order : Order
  sell_order : Order
  qty : Int
  price : ℚ
deriving DecidableEq, Repr

/-- Apply a sequence of trade executions to a state. -/
def execute_trades (cfg : FeeConfig) (steps : List TradeIntent)
    (s : EngineState) : EngineState :=
  steps.foldl (fun st t => execute_trade cfg st t.buy_order t.sell_order t.qty t.price) s

/-- Modelled from the spec: `round_half_even(x, 2 decimals)` — round to the
smallest currency unit (two decimal places), ties going to the even
hundredth.  The engine's own fee computation is compared against this. -/
def round_half_even2 (x : ℚ) : ℚ :=
  let y : ℚ := x * 100
  let fl : ℤ := ⌊y⌋
  let frac : ℚ := y - (fl : ℚ)
  let r : ℤ :=
    if frac < 1 / 2 then fl
    else if 1 / 2 < frac then fl + 1
    else if fl % 2 = 0 then fl else fl + 1
  (r : ℚ) / 100

/-! ## Helper lemmas -/

theorem get_admin_user_id_book (s : EngineState) :
    (get_admin_user_id s).2.book = s.book := by
  unfold get_admin_user_id; split <;> rfl

theorem get_admin_user_id_ledger (s : EngineState) :
    (get_admin_user_id s).2.ledger = s.ledger := by
  unfold get_admin_user_id; split <;> rfl

theorem get_admin_user_id_trades (s : EngineState) :
    (get_admin_user_id s).2.trades = s.trades := by
  unfold get_admin_user_id; split <;> rfl

theorem get_admin_user_id_positions (s : EngineState) :
    (get_admin_user_id s).2.positions = s.positions := by
  unfold get_admin_user_id; split <;> rfl

theorem selectBest_mem {α : Type} {pref : α → α → Bool} :
    ∀ {l : List α} {o : α}, selectBest pref l = some o → o ∈ l
  | [], _, h => by simp [selectBest] at h
  | a :: rest, o, h => by
    unfold selectBest at h
    cases hr : selectBest pref rest with
    | none =>
      rw [hr] at h
      simp only [Option.some.injEq] at h
      simp [h]
    | some b =>
      rw [hr] at h
      by_cases hp : pref b a
      · simp only [hp, if_true, Option.some.injEq] at h
        subst h
        exact List.mem_cons_of_mem _ (selectBest_mem hr)
      · simp only [hp, Bool.false_eq_true, if_false, Option.some.injEq] at h
        simp [h]

theorem bestBuy_spec {asset_id : Nat} {book : List Order} {b : Order}
    (h : bestBuy asset_id book = some b) :
    b ∈ book ∧ b.asset_id = asset_id ∧ b.side = OrderSide.BUY := by
  have hmem := selectBest_mem h
  rw [List.mem_filter] at hmem
  obtain ⟨h1, h2⟩ := hmem
  simp only [Bool.and_eq_true, beq_iff_eq] at h2
  exact ⟨h1, h2.1, h2.2⟩

theorem bestSell_spec {asset_id : Nat} {book : List Order} {l : Order}
    (h : bestSell asset_id book = some l) :
    l ∈ book ∧ l.asset_id = asset_id ∧ l.side = OrderSide.SELL := by
  have hmem := selectBest_mem h
  rw [List.mem_filter] at hmem
  obtain ⟨h1, h2⟩ := hmem
  simp only [Bool.and_eq_true, beq_iff_eq] at h2
  exact ⟨h1, h2.1, h2.2⟩

/-! ## Claim theorems -/

/-- C1 — Conservation of cash: executing a trade with notional
`price × qty` posts exactly three ledger entries — buyer debited
`notional + taker_fee`, seller credited `notional − maker_fee`, fee account
credited `maker_fee + taker_fee` — and the three deltas sum to zero. -/
theorem conservation_of_cash (cfg : FeeConfig) (s : EngineState)
    (buy_order sell_order : Order) (qty : Int) (price : ℚ) :
    ∃ fee_uid : Nat,
      (execute_trade cfg s buy_order sell_order qty price).ledger =
        s.ledger ++
          [⟨buy_order.user_id,
            -(price * (qty : ℚ) + price * (qty : ℚ) * cfg.taker), "BUY",
            some buy_order.id⟩,
           ⟨sell_order.user_id,
            price * (qty : ℚ) - price * (qty : ℚ) * cfg.maker, "SELL",
            some sell_order.id⟩,
           ⟨fee_uid,
            price * (qty : ℚ) * cfg.maker + price * (qty : ℚ) * cfg.taker, "FEE",
            none⟩] ∧
      -(price * (qty : ℚ) + price * (qty : ℚ) * cfg.taker) +
          (price * (qty : ℚ) - price * (qty : ℚ) * cfg.maker) +
          (price * (qty : ℚ) * cfg.maker + price * (qty : ℚ) * cfg.taker) = 0 := by
  unfold execute_trade
  exact ⟨_, by simp [insert_cash_entry, get_admin_user_id_ledger, mul_assoc]; rfl,
    by ring⟩

/-- C2 (counterexample) — with maker rate 1.5 % (a legal configuration), a
trade of quantity 1 at price 1 charges the seller a maker fee of exactly
`0.015`, whereas `round_half_even(1 × 0.015, 2) = 0.02`: the fee actually
charged is the exact product, not the half-even 2-decimal rounding the claim
asserts. -/
theorem fee_not_rounded_counterexample :
    ((execute_trade ⟨3 / 200, 0⟩ ⟨[], [], [], [], [⟨1, "a", Role.ADMIN⟩], 2⟩
          ⟨1, 1, OrderSide.BUY, 1, 1, 100, 0⟩ ⟨2, 1, OrderSide.SELL, 1, 1, 200, 1⟩
          1 1).ledger.map (fun e => e.delta)) =
        [-(1 : ℚ), 1 - 3 / 200, 3 / 200] ∧
      round_half_even2 ((1 : ℚ) * (3 / 200)) = 2 / 100 ∧
      (3 / 200 : ℚ) ≠ 2 / 100 := by
  refine ⟨?_, by norm_num [round_half_even2], by norm_num⟩
  norm_num [execute_trade, insert_cash_entry, get_admin_user_id, update_position,
    selectBest]

/-- C2 (amended) — the engine charges fees as the *exact* products
`notional × rate` (and posts exact-ℚ ledger deltas built from them); no
rounding to two decimal places is applied anywhere in trade execution. -/
theorem fees_are_exact_products (cfg : FeeConfig) (s : EngineState)
    (buy_order sell_order : Order) (qty : Int) (price : ℚ) :
    ((execute_trade cfg s buy_order sell_order qty price).ledger.drop
        s.ledger.length).map (fun e => e.delta) =
      [-(price * (qty : ℚ) + price * (qty : ℚ) * cfg.taker),
       price * (qty : ℚ) - price * (qty : ℚ) * cfg.maker,
       price * (qty : ℚ) * cfg.maker + price * (qty : ℚ) * cfg.taker] := by
  simp [execute_trade, insert_cash_entry, get_admin_user_id_ledger, mul_assoc,
    List.drop_left]

/-- C3 — whenever the loop body finds a best BUY and best SELL with
`sell.price ≤ buy.price`, the step hands `execute_trade` the quantity
`min buy.qty_open sell.qty_open` and the SELL order's price, and the trade
record appended carries exactly that quantity and price. -/
theorem match_step_min_qty_sell_price (cfg : FeeConfig) (asset_id : Nat)
    (s : EngineState) (b l : Order) (hb : bestBuy asset_id s.book = some b)
    (hl : bestSell asset_id s.book = some l) (hcross : l.price ≤ b.price) :
    match_step cfg asset_id s =
        some (execute_trade cfg s b l (min b.qty_open l.qty_open) l.price) ∧
      (execute_trade cfg s b l (min b.qty_open l.qty_open) l.price).trades =
        s.trades ++
          [⟨b.asset_id, l.price, min b.qty_open l.qty_open, b.user_id,
            l.user_id⟩] := by
  constructor
  · simp [match_step, hb, hl, not_lt.mpr hcross]
  · simp [execute_trade, get_admin_user_id_trades]

/-- C3 witness: concrete crossing book (BUY 10 @ 10 vs SELL 10 @ 9). -/
theorem match_step_min_qty_sell_price_witness :
    (bestBuy 1 [⟨1, 1, OrderSide.BUY, 10, 10, 100, 0⟩,
        ⟨2, 1, OrderSide.SELL, 9, 10, 200, 1⟩] =
      some ⟨1, 1, OrderSide.BUY, 10, 10, 100, 0⟩) ∧
    (bestSell 1 [⟨1, 1, OrderSide.BUY, 10, 10, 100, 0⟩,
        ⟨2, 1, OrderSide.SELL, 9, 10, 200, 1⟩] =
      some ⟨2, 1, OrderSide.SELL, 9, 10, 200, 1⟩) ∧
    ((9 : ℚ) ≤ 10) ∧
    (match_step ⟨0, 0⟩ 1
          ⟨[⟨1, 1, OrderSide.BUY, 10, 10, 100, 0⟩,
            ⟨2, 1, OrderSide.SELL, 9, 10, 200, 1⟩], [], [], [],
            [⟨1, "a", Role.ADMIN⟩], 2⟩ =
        some (execute_trade ⟨0, 0⟩
          ⟨[⟨1, 1, OrderSide.BUY, 10, 10, 100, 0⟩,
            ⟨2, 1, OrderSide.SELL, 9, 10, 200, 1⟩], [], [], [],
            [⟨1, "a", Role.ADMIN⟩], 2⟩
          ⟨1, 1, OrderSide.BUY, 10, 10, 100, 0⟩
          ⟨2, 1, OrderSide.SELL, 9, 10, 200, 1⟩ (min 10 10) 9) ∧
      (execute_trade ⟨0, 0⟩
          ⟨[⟨1, 1, OrderSide.BUY, 10, 10, 100, 0⟩,
            ⟨2, 1, OrderSide.SELL, 9, 10, 200, 1⟩], [], [], [],
            [⟨1, "a", Role.ADMIN⟩], 2⟩
          ⟨1, 1, OrderSide.BUY, 10, 10, 100, 0⟩
          ⟨2, 1, OrderSide.SELL, 9, 10, 200, 1⟩ (min 10 10) 9).trades =
        [] ++ [⟨1, 9, min 10 10, 100, 200⟩]) :=
  ⟨by decide, by decide, by norm_num,
    match_step_min_qty_sell_price ⟨0, 0⟩ 1 _ _ _ (by decide) (by decide)
      (by norm_num)⟩

/-- C5 (counterexample) — with no admin user in the user table, executing a
trade does not fail: `get_admin_user_id` silently synthesizes an admin account
(`admin@local`, the next free id) and the trade's fees are credited to it. -/
theorem missing_fee_account_counterexample :
    ((execute_trade ⟨1 / 100, 2 / 100⟩ ⟨[], [], [], [], [⟨7, "u", Role.USER⟩], 8⟩
          ⟨1, 1, OrderSide.BUY, 10, 5, 7, 0⟩ ⟨2, 1, OrderSide.SELL, 9, 5, 7, 1⟩
          5 9).users =
        [⟨7, "u", Role.USER⟩, ⟨8, "admin@local", Role.ADMIN⟩]) ∧
      (⟨8, 27 / 20, "FEE", none⟩ : CashLedger) ∈
        (execute_trade ⟨1 / 100, 2 / 100⟩ ⟨[], [], [], [], [⟨7, "u", Role.USER⟩], 8⟩
          ⟨1, 1, OrderSide.BUY, 10, 5, 7, 0⟩ ⟨2, 1, OrderSide.SELL, 9, 5, 7, 1⟩
          5 9).ledger := by
  constructor
  · norm_num [execute_trade, insert_cash_entry, get_admin_user_id, update_position,
      selectBest]
  · norm_num [execute_trade, insert_cash_entry, get_admin_user_id, update_position,
      selectBest]

/-- C5 (amended) — when no user with role ADMIN exists, `get_admin_user_id`
does not raise a configuration error: it inserts a synthetic admin user
`admin@local` under the next free id and returns that id, so fee posting
proceeds against the synthesized account. -/
theorem missing_fee_account_synthesizes_admin (s : EngineState)
    (h : ∀ u ∈ s.users, u.role ≠ Role.ADMIN) :
    get_admin_user_id s =
      (s.next_user_id,
        { s with users := s.users ++ [⟨s.next_user_id, "admin@local", Role.ADMIN⟩],
                 next_user_id := s.next_user_id + 1 }) := by
  unfold get_admin_user_id
  have hfilter : s.users.filter (fun u => u.role == Role.ADMIN) = [] := by
    rw [List.filter_eq_nil_iff]
    intro u hu
    simpa using h u hu
  rw [hfilter]
  rfl

/-- C5 amended witness: one non-admin user, id 7, next id 8. -/
theorem missing_fee_account_synthesizes_admin_witness :
    (∀ u ∈ ([⟨7, "u", Role.USER⟩] : List User), u.role ≠ Role.ADMIN) ∧
      get_admin_user_id ⟨[], [], [], [], [⟨7, "u", Role.USER⟩], 8⟩ =
        (8, { book := [], positions := [], ledger := [], trades := [],
              users := [⟨7, "u", Role.USER⟩, ⟨8, "admin@local", Role.ADMIN⟩],
              next_user_id := 9 }) :=
  ⟨by decide, missing_fee_account_synthesizes_admin _ (by decide)⟩

/-- C7 — a buyer-side position update with trade quantity `q > 0` on a
position with nonnegative quantity yields `new_qty = old_qty + q` and
`new_avg = (old_avg × old_qty + price × q) / (old_qty + q)`; when the old
quantity is zero this average equals the trade price. -/
theorem buyer_position_weighted_average (p : Position) (q : Int) (price : ℚ)
    (hp : 0 ≤ p.qty) (hq : 0 < q) :
    (updatePositionEntry p q price true).qty = p.qty + q ∧
      (updatePositionEntry p q price true).avg_price =
        (p.avg_price * (p.qty : ℚ) + price * (q : ℚ)) / ((p.qty : ℚ) + (q : ℚ)) ∧
      (p.qty = 0 → (updatePositionEntry p q price true).avg_price = price) := by
  have hpos : 0 < p.qty + q := by omega
  refine ⟨by simp [updatePositionEntry], ?_, ?_⟩
  · simp only [updatePositionEntry, if_pos hpos]
    push_cast
    ring_nf
  · intro h0
    have hq0 : (q : ℚ) ≠ 0 := Int.cast_ne_zero.mpr (by omega)
    simp only [updatePositionEntry, h0]
    simp [hq0]
    intro hle
    exact absurd hq (not_lt.mpr hle)

/-- C7 witness: position (qty 0, avg 0) buying 2 units at price 5. -/
theorem buyer_position_weighted_average_witness :
    ((0 : Int) ≤ (⟨1, 1, 0, 0⟩ : Position).qty) ∧ ((0 : Int) < 2) ∧
      ((updatePositionEntry ⟨1, 1, 0, 0⟩ 2 5 true).qty = 0 + 2 ∧
        (updatePositionEntry ⟨1, 1, 0, 0⟩ 2 5 true).avg_price =
          ((0 : ℚ) * ((0 : Int) : ℚ) + 5 * ((2 : Int) : ℚ)) /
            (((0 : Int) : ℚ) + ((2 : Int) : ℚ)) ∧
        ((⟨1, 1, 0, 0⟩ : Position).qty = 0 →
          (updatePositionEntry ⟨1, 1, 0, 0⟩ 2 5 true).avg_price = 5)) :=
  ⟨by decide, by decide,
    buyer_position_weighted_average ⟨1, 1, 0, 0⟩ 2 5 (by decide) (by decide)⟩

theorem updatePositionEntry_nonneg (p : Position) (q : Int) (price : ℚ)
    (is_buy : Bool) (hp : 0 ≤ p.qty) (hq : 0 ≤ q) :
    0 ≤ (updatePositionEntry p q price is_buy).qty := by
  cases is_buy
  · show 0 ≤ (if p.qty - q < 0 then 0 else p.qty - q)
    split <;> omega
  · show 0 ≤ p.qty + q
    omega

theorem update_position_nonneg (ps : List Position) (uid aid : Nat) (q : Int)
    (price : ℚ) (is_buy : Bool) (hps : ∀ p ∈ ps, 0 ≤ p.qty) (hq : 0 ≤ q) :
    ∀ p ∈ update_position ps uid aid q price is_buy, 0 ≤ p.qty := by
  intro p hp
  unfold update_position at hp
  cases hfind : ps.find? (fun p => p.user_id == uid && p.asset_id == aid) with
  | some p₀ =>
    rw [hfind] at hp
    rw [List.mem_map] at hp
    obtain ⟨p₁, hp₁, rfl⟩ := hp
    by_cases hc : (p₁.user_id == uid && p₁.asset_id == aid) = true
    · rw [if_pos hc]
      exact updatePositionEntry_nonneg _ _ _ _ (hps p₁ hp₁) hq
    · rw [if_neg hc]
      exact hps p₁ hp₁
  | none =>
    rw [hfind] at hp
    rw [List.mem_append] at hp
    cases hp with
    | inl h => exact hps p h
    | inr h =>
      simp only [List.mem_singleton] at h
      subst h
      exact updatePositionEntry_nonneg _ _ _ _ (by simp) hq

theorem execute_trade_positions (cfg : FeeConfig) (s : EngineState)
    (buy_order sell_order : Order) (qty : Int) (price : ℚ) :
    (execute_trade cfg s buy_order sell_order qty price).positions =
      update_position
        (update_position s.positions buy_order.user_id buy_order.asset_id qty
          price true)
        sell_order.user_id sell_order.asset_id qty price false := by
  simp [execute_trade, get_admin_user_id_positions]

theorem execute_trades_nonneg (cfg : FeeConfig) :
    ∀ (steps : List TradeIntent) (s : EngineState),
      (∀ t ∈ steps, 0 ≤ t.qty) → (∀ p ∈ s.positions, 0 ≤ p.qty) →
      ∀ p ∈ (execute_trades cfg steps s).positions, 0 ≤ p.qty
  | [], s, _, hs => by simpa [execute_trades] using hs
  | t :: ts, s, hq, hs => by
    have h1 : ∀ p ∈ (execute_trade cfg s t.buy_order t.sell_order t.qty
        t.price).positions, 0 ≤ p.qty := by
      rw [execute_trade_positions]
      exact update_position_nonneg _ _ _ _ _ _
        (update_position_nonneg _ _ _ _ _ _ hs (hq t (by simp)))
        (hq t (by simp))
    simpa [execute_trades] using
      execute_trades_nonneg cfg ts _ (fun t' ht' => hq t' (by simp [ht'])) h1

/-- C6 — no negative positions: from a state whose positions are all
nonnegative, any sequence of trade executions (each with nonnegative trade
quantity, as the matching loop always produces) keeps every position's
quantity ≥ 0; moreover the seller-side update is exactly the clamp
`new_qty = max 0 (old_qty − trade_qty)`. -/
theorem no_negative_positions (cfg : FeeConfig) (steps : List TradeIntent)
    (s : EngineState) (hq : ∀ t ∈ steps, 0 ≤ t.qty)
    (hs : ∀ p ∈ s.positions, 0 ≤ p.qty) :
    (∀ p ∈ (execute_trades cfg steps s).positions, 0 ≤ p.qty) ∧
      ∀ (p : Position) (q : Int) (price : ℚ),
        (updatePositionEntry p q price false).qty = max 0 (p.qty - q) := by
  refine ⟨execute_trades_nonneg cfg steps s hq hs, ?_⟩
  intro p q price
  show (if p.qty - q < 0 then 0 else p.qty - q) = max 0 (p.qty - q)
  split <;> omega

/-- C6 witness: one trade of quantity 5 against a seller holding 3 units
(the oversell is clamped to zero). -/
theorem no_negative_positions_witness :
    (∀ t ∈ ([⟨⟨1, 1, OrderSide.BUY, 10, 5, 100, 0⟩,
        ⟨2, 1, OrderSide.SELL, 9, 5, 200, 1⟩, 5, 9⟩] : List TradeIntent),
        (0 : Int) ≤ t.qty) ∧
      (∀ p ∈ ([⟨200, 1, 3, 4⟩] : List Position), (0 : Int) ≤ p.qty) ∧
      ((∀ p ∈ (execute_trades ⟨0, 0⟩
            [⟨⟨1, 1, OrderSide.BUY, 10, 5, 100, 0⟩,
              ⟨2, 1, OrderSide.SELL, 9, 5, 200, 1⟩, 5, 9⟩]
            ⟨[], [⟨200, 1, 3, 4⟩], [], [], [⟨1, "a", Role.ADMIN⟩], 2⟩).positions,
          (0 : Int) ≤ p.qty) ∧
        ∀ (p : Position) (q : Int) (price : ℚ),
          (updatePositionEntry p q price false).qty = max 0 (p.qty - q)) :=
  ⟨by decide, by decide,
    no_negative_positions ⟨0, 0⟩ _ _ (by decide) (by decide)⟩

theorem execute_trade_book (cfg : FeeConfig) (s : EngineState)
    (buy_order sell_order : Order) (qty : Int) (price : ℚ) :
    (execute_trade cfg s buy_order sell_order qty price).book =
      (s.book.map fun o =>
          if o.id == buy_order.id || o.id == sell_order.id then
            { o with qty_open := o.qty_open - qty }
          else o).filter
        fun o =>
          !((o.id == buy_order.id || o.id == sell_order.id) &&
            decide (o.qty_open ≤ 0)) := by
  simp [execute_trade, get_admin_user_id_book]

theorem execute_trade_bookWF (cfg : FeeConfig) (s : EngineState)
    (buy_order sell_order : Order) (qty : Int) (price : ℚ)
    (h : bookWF s.book) :
    bookWF (execute_trade cfg s buy_order sell_order qty price).book := by
  rw [execute_trade_book]
  intro o ho
  rw [List.mem_filter] at ho
  obtain ⟨homem, hokeep⟩ := ho
  rw [List.mem_map] at homem
  obtain ⟨u, hu, rfl⟩ := homem
  by_cases hc : (u.id == buy_order.id || u.id == sell_order.id) = true
  · rw [if_pos hc] at hokeep ⊢
    show 1 ≤ u.qty_open - qty
    replace hokeep : (Bool.not ((u.id == buy_order.id || u.id == sell_order.id) &&
        decide (u.qty_open - qty ≤ 0))) = true := hokeep
    rw [hc] at hokeep
    simp only [Bool.true_and, Bool.not_eq_true', decide_eq_false_iff_not,
      not_le] at hokeep
    omega
  · rw [if_neg hc] at hokeep ⊢
    exact h u hu

theorem execute_trade_openQty_lt (cfg : FeeConfig) (s : EngineState)
    (buy_order sell_order : Order) (qty : Int) (price : ℚ)
    (hbuy : buy_order ∈ s.book) (hq1 : 1 ≤ qty)
    (hqb : qty ≤ buy_order.qty_open) :
    openQty (execute_trade cfg s buy_order sell_order qty price).book <
      openQty s.book := by
  rw [execute_trade_book]
  apply lt_of_le_of_lt (b := openQty (s.book.map fun o =>
    if o.id == buy_order.id || o.id == sell_order.id then
      { o with qty_open := o.qty_open - qty }
    else o))
  · unfold openQty
    exact List.Sublist.sum_le_sum (List.Sublist.map _ (List.filter_sublist _))
      (fun a _ => Nat.zero_le a)
  · unfold openQty
    rw [List.map_map]
    apply List.sum_lt_sum
    · intro o _
      simp only [Function.comp]
      by_cases hc : (o.id == buy_order.id || o.id == sell_order.id) = true
      · rw [if_pos hc]
        show (o.qty_open - qty).toNat ≤ o.qty_open.toNat
        omega
      · rw [if_neg hc]
    · refine ⟨buy_order, hbuy, ?_⟩
      simp only [Function.comp]
      rw [if_pos (by simp)]
      show (buy_order.qty_open - qty).toNat < buy_order.qty_open.toNat
      omega

theorem match_step_some_elim {cfg : FeeConfig} {asset_id : Nat}
    {s s' : EngineState} (h : match_step cfg asset_id s = some s') :
    ∃ b l, bestBuy asset_id s.book = some b ∧
      bestSell asset_id s.book = some l ∧ l.price ≤ b.price ∧
      s' = execute_trade cfg s b l (min b.qty_open l.qty_open) l.price := by
  unfold match_step at h
  cases hb : bestBuy asset_id s.book with
  | none =>
    rw [hb] at h
    cases hl : bestSell asset_id s.book with
    | none => rw [hl] at h; exact Option.noConfusion h
    | some l => rw [hl] at h; exact Option.noConfusion h
  | some b =>
    rw [hb] at h
    cases hl : bestSell asset_id s.book with
    | none => rw [hl] at h; exact Option.noConfusion h
    | some l =>
      rw [hl] at h
      replace h : (if b.price < l.price then none
          else some (execute_trade cfg s b l (min b.qty_open l.qty_open)
            l.price)) = some s' := h
      by_cases hp : b.price < l.price
      · rw [if_pos hp] at h; exact Option.noConfusion h
      · rw [if_neg hp] at h
        exact ⟨b, l, rfl, rfl, not_lt.mp hp, (Option.some.inj h).symm⟩

theorem match_step_none_elim {cfg : FeeConfig} {asset_id : Nat}
    {s : EngineState} (h : match_step cfg asset_id s = none) {b l : Order}
    (hb : bestBuy asset_id s.book = some b)
    (hl : bestSell asset_id s.book = some l) : b.price < l.price := by
  unfold match_step at h
  rw [hb, hl] at h
  replace h : (if b.price < l.price then none
      else some (execute_trade cfg s b l (min b.qty_open l.qty_open)
        l.price)) = none := h
  by_cases hp : b.price < l.price
  · exact hp
  · rw [if_neg hp] at h; exact Option.noConfusion h

theorem match_step_bookWF {cfg : FeeConfig} {asset_id : Nat}
    {s s' : EngineState} (h : match_step cfg asset_id s = some s')
    (hwf : bookWF s.book) : bookWF s'.book := by
  obtain ⟨b, l, _, _, _, rfl⟩ := match_step_some_elim h
  exact execute_trade_bookWF _ _ _ _ _ _ hwf

theorem match_step_openQty_lt {cfg : FeeConfig} {asset_id : Nat}
    {s s' : EngineState} (h : match_step cfg asset_id s = some s')
    (hwf : bookWF s.book) : openQty s'.book < openQty s.book := by
  obtain ⟨b, l, hb, hl, _, rfl⟩ := match_step_some_elim h
  have hbm := bestBuy_spec hb
  have hlm := bestSell_spec hl
  have h1 : 1 ≤ b.qty_open := hwf b hbm.1
  have h2 : 1 ≤ l.qty_open := hwf l hlm.1
  exact execute_trade_openQty_lt cfg s b l _ _ hbm.1 (le_min h1 h2)
    (min_le_left _ _)

theorem match_loop_stuck (cfg : FeeConfig) (asset_id : Nat) :
    ∀ (fuel : Nat) (s : EngineState), bookWF s.book → openQty s.book < fuel →
      match_step cfg asset_id (match_loop cfg asset_id fuel s) = none
  | 0, _, _, hlt => absurd hlt (by omega)
  | fuel + 1, s, hwf, hlt => by
    unfold match_loop
    cases hs : match_step cfg asset_id s with
    | none => simp [hs]
    | some s' =>
      simp only [hs]
      exact match_loop_stuck cfg asset_id fuel s' (match_step_bookWF hs hwf)
        (by have := match_step_openQty_lt hs hwf; omega)

theorem match_loop_fuel_add (cfg : FeeConfig) (asset_id : Nat) :
    ∀ (fuel extra : Nat) (s : EngineState), bookWF s.book →
      openQty s.book < fuel →
      match_loop cfg asset_id (fuel + extra) s = match_loop cfg asset_id fuel s
  | 0, _, _, _, hlt => absurd hlt (by omega)
  | fuel + 1, extra, s, hwf, hlt => by
    have heq : fuel + 1 + extra = (fuel + extra) + 1 := by omega
    rw [heq]
    unfold match_loop
    cases hs : match_step cfg asset_id s with
    | none => simp only [hs]
    | some s' =>
      simp only [hs]
      exact match_loop_fuel_add cfg asset_id fuel extra s'
        (match_step_bookWF hs hwf)
        (by have := match_step_openQty_lt hs hwf; omega)

/-- C10 — termination of the matching loop: when every resting order has
positive open quantity, the pass `match_asset_orders` (the loop run with fuel
`openQty + 1`) ends in a state where the loop's stopping condition holds, and
granting the loop any extra fuel changes nothing — the `while True` loop
terminates because every executed trade strictly decreases the total open
quantity. -/
theorem matching_loop_terminates (cfg : FeeConfig) (asset_id : Nat)
    (s : EngineState) (hwf : bookWF s.book) :
    match_step cfg asset_id (match_asset_orders cfg asset_id s) = none ∧
      ∀ extra : Nat,
        match_loop cfg asset_id (openQty s.book + 1 + extra) s =
          match_asset_orders cfg asset_id s := by
  constructor
  · exact match_loop_stuck cfg asset_id (openQty s.book + 1) s hwf (by omega)
  · intro extra
    exact match_loop_fuel_add cfg asset_id (openQty s.book + 1) extra s hwf
      (by omega)

/-- C10 witness: BUY 10 @ 10 against SELL 10 @ 9. -/
theorem matching_loop_terminates_witness :
    bookWF [⟨1, 1, OrderSide.BUY, 10, 10, 100, 0⟩,
        ⟨2, 1, OrderSide.SELL, 9, 10, 200, 1⟩] ∧
      (match_step ⟨0, 0⟩ 1
          (match_asset_orders ⟨0, 0⟩ 1
            ⟨[⟨1, 1, OrderSide.BUY, 10, 10, 100, 0⟩,
              ⟨2, 1, OrderSide.SELL, 9, 10, 200, 1⟩], [], [], [],
              [⟨1, "a", Role.ADMIN⟩], 2⟩) = none ∧
        ∀ extra : Nat,
          match_loop ⟨0, 0⟩ 1
              (openQty [⟨1, 1, OrderSide.BUY, 10, 10, 100, 0⟩,
                ⟨2, 1, OrderSide.SELL, 9, 10, 200, 1⟩] + 1 + extra)
              ⟨[⟨1, 1, OrderSide.BUY, 10, 10, 100, 0⟩,
                ⟨2, 1, OrderSide.SELL, 9, 10, 200, 1⟩], [], [], [],
                [⟨1, "a", Role.ADMIN⟩], 2⟩ =
            match_asset_orders ⟨0, 0⟩ 1
              ⟨[⟨1, 1, OrderSide.BUY, 10, 10, 100, 0⟩,
                ⟨2, 1, OrderSide.SELL, 9, 10, 200, 1⟩], [], [], [],
                [⟨1, "a", Role.ADMIN⟩], 2⟩) :=
  ⟨by decide, matching_loop_terminates ⟨0, 0⟩ 1 _ (by decide)⟩

/-- C4 — crossing-free termination: after a completed matching pass, whenever
both sides still have a best resting order, the best BUY price is strictly
below the best SELL price (if either side is empty the statement is vacuous,
matching "either one side's book is empty or best BUY < best SELL"). -/
theorem crossing_free_after_pass (cfg : FeeConfig) (asset_id : Nat)
    (s : EngineState) (hwf : bookWF s.book) :
    ∀ b l, bestBuy asset_id (match_asset_orders cfg asset_id s).book = some b →
      bestSell asset_id (match_asset_orders cfg asset_id s).book = some l →
      b.price < l.price := by
  intro b l hb hl
  exact match_step_none_elim
    (match_loop_stuck cfg asset_id (openQty s.book + 1) s hwf (by omega)) hb hl

/-- C4 witness: BUY 10 @ 10 against SELL 6 @ 9 (Scenario B's book; after the
pass the SELL side is empty, so the crossing-free condition holds). -/
theorem crossing_free_after_pass_witness :
    bookWF [⟨1, 1, OrderSide.BUY, 10, 10, 100, 0⟩,
        ⟨2, 1, OrderSide.SELL, 9, 6, 200, 1⟩] ∧
      ∀ b l,
        bestBuy 1 (match_asset_orders ⟨0, 0⟩ 1
            ⟨[⟨1, 1, OrderSide.BUY, 10, 10, 100, 0⟩,
              ⟨2, 1, OrderSide.SELL, 9, 6, 200, 1⟩], [], [], [],
              [⟨1, "a", Role.ADMIN⟩], 2⟩).book = some b →
        bestSell 1 (match_asset_orders ⟨0, 0⟩ 1
            ⟨[⟨1, 1, OrderSide.BUY, 10, 10, 100, 0⟩,
              ⟨2, 1, OrderSide.SELL, 9, 6, 200, 1⟩], [], [], [],
              [⟨1, "a", Role.ADMIN⟩], 2⟩).book = some l →
        b.price < l.price :=
  ⟨by decide, crossing_free_after_pass ⟨0, 0⟩ 1 _ (by decide)⟩

/-- C8 — idempotence of an empty pass: if the book is already crossing-free
(whenever both best orders exist, best BUY price < best SELL price, which
covers the empty-side cases vacuously), the matching pass returns the state
unchanged — no trades, no ledger entries, no position changes, no order
mutations. -/
theorem empty_pass_identity (cfg : FeeConfig) (asset_id : Nat)
    (s : EngineState)
    (h : ∀ b l, bestBuy asset_id s.book = some b →
      bestSell asset_id s.book = some l → b.price < l.price) :
    match_asset_orders cfg asset_id s = s := by
  have hstep : match_step cfg asset_id s = none := by
    unfold match_step
    cases hb : bestBuy asset_id s.book with
    | none =>
      cases hl : bestSell asset_id s.book with
      | none => rfl
      | some l => rfl
    | some b =>
      cases hl : bestSell asset_id s.book with
      | none => rfl
      | some l =>
        show (if b.price < l.price then none
          else some (execute_trade cfg s b l (min b.qty_open l.qty_open)
            l.price)) = none
        rw [if_pos (h b l hb hl)]
  show match_loop cfg asset_id (openQty s.book + 1) s = s
  unfold match_loop
  simp only [hstep]

/-- C8 witness: crossing-free book BUY 2 @ 5 against SELL 3 @ 9. -/
theorem empty_pass_identity_witness :
    (∀ b l,
        bestBuy 1 ([⟨1, 1, OrderSide.BUY, 5, 2, 100, 0⟩,
          ⟨2, 1, OrderSide.SELL, 9, 3, 200, 1⟩] : List Order) = some b →
        bestSell 1 ([⟨1, 1, OrderSide.BUY, 5, 2, 100, 0⟩,
          ⟨2, 1, OrderSide.SELL, 9, 3, 200, 1⟩] : List Order) = some l →
        b.price < l.price) ∧
      match_asset_orders ⟨0, 0⟩ 1
          ⟨[⟨1, 1, OrderSide.BUY, 5, 2, 100, 0⟩,
            ⟨2, 1, OrderSide.SELL, 9, 3, 200, 1⟩], [], [], [],
            [⟨1, "a", Role.ADMIN⟩], 2⟩ =
        ⟨[⟨1, 1, OrderSide.BUY, 5, 2, 100, 0⟩,
          ⟨2, 1, OrderSide.SELL, 9, 3, 200, 1⟩], [], [], [],
          [⟨1, "a", Role.ADMIN⟩], 2⟩ := by
  have hb : bestBuy 1 ([⟨1, 1, OrderSide.BUY, 5, 2, 100, 0⟩,
      ⟨2, 1, OrderSide.SELL, 9, 3, 200, 1⟩] : List Order) =
      some ⟨1, 1, OrderSide.BUY, 5, 2, 100, 0⟩ := by decide
  have hl : bestSell 1 ([⟨1, 1, OrderSide.BUY, 5, 2, 100, 0⟩,
      ⟨2, 1, OrderSide.SELL, 9, 3, 200, 1⟩] : List Order) =
      some ⟨2, 1, OrderSide.SELL, 9, 3, 200, 1⟩ := by decide
  have hcross : ∀ b l,
      bestBuy 1 ([⟨1, 1, OrderSide.BUY, 5, 2, 100, 0⟩,
        ⟨2, 1, OrderSide.SELL, 9, 3, 200, 1⟩] : List Order) = some b →
      bestSell 1 ([⟨1, 1, OrderSide.BUY, 5, 2, 100, 0⟩,
        ⟨2, 1, OrderSide.SELL, 9, 3, 200, 1⟩] : List Order) = some l →
      b.price < l.price := by
    intro b l hb' hl'
    rw [hb] at hb'
    rw [hl] at hl'
    cases hb'
    cases hl'
    norm_num
  exact ⟨hcross, empty_pass_identity ⟨0, 0⟩ 1 _ hcross⟩

end MinecraftApp
